import Mathlib

/-!
Verification development for the AntigravityMobile CDP client
(`cdp-client` module).  The definitions below shallowly embed the
JavaScript source: pure string manipulation is modelled over `List Char`
with JS semantics (trim, split, regex-style matchers), the WebSocket
request/response correlation is a pure step function over the pending-id
map, and each command-facade operation is a state-passing function that
records the requests it sends and the number of `close()` invocations.
-/

/-! ## JS string primitives over List Char -/

/-- Whitespace as recognised by JS `trim` and the `\s` regex class
(ASCII subset: space, tab, LF, CR, VT, FF). -/
def isWS (c : Char) : Bool :=
  c = ' ' || c = '\t' || c = '\n' || c = '\r' || c = '\x0b' || c = '\x0c'

/-- ASCII lower-casing of one character, as JS `toLowerCase` / the regex
`i` flag behave on ASCII input. -/
def lcChar (c : Char) : Char :=
  match c with
  | 'A' => 'a' | 'B' => 'b' | 'C' => 'c' | 'D' => 'd' | 'E' => 'e'
  | 'F' => 'f' | 'G' => 'g' | 'H' => 'h' | 'I' => 'i' | 'J' => 'j'
  | 'K' => 'k' | 'L' => 'l' | 'M' => 'm' | 'N' => 'n' | 'O' => 'o'
  | 'P' => 'p' | 'Q' => 'q' | 'R' => 'r' | 'S' => 's' | 'T' => 't'
  | 'U' => 'u' | 'V' => 'v' | 'W' => 'w' | 'X' => 'x' | 'Y' => 'y'
  | 'Z' => 'z'
  | c => c

/-- Lower-case a character list. -/
def lcList (l : List Char) : List Char := List.map lcChar l

/-- Boolean prefix test on character lists. -/
def seqPrefixOf : List Char → List Char → Bool
  | [], _ => true
  | _ :: _, [] => false
  | a :: as, b :: bs => a == b && seqPrefixOf as bs

/-- Boolean contiguous-substring test (JS `String.includes` /
unanchored regex literal search). -/
def listContains (needle : List Char) : List Char → Bool
  | [] => needle.isEmpty
  | c :: rest => seqPrefixOf needle (c :: rest) || listContains needle rest

/-- Index of the first occurrence of `needle` (JS `String.indexOf`). -/
def idxOfSeq (needle : List Char) : List Char → Option Nat
  | [] => if needle.isEmpty then some 0 else none
  | c :: rest =>
    if seqPrefixOf needle (c :: rest) then some 0
    else (idxOfSeq needle rest).map (· + 1)

/-- Drop a maximal run of trailing whitespace (the right half of JS
`trim`). -/
def dropTrailingWS : List Char → List Char
  | [] => []
  | c :: rest =>
    let r := dropTrailingWS rest
    if r = [] && isWS c then [] else c :: r

/-- JS `String.prototype.trim`: strip leading and trailing whitespace. -/
def jsTrim (l : List Char) : List Char :=
  (dropTrailingWS l).dropWhile isWS

/-- Worker for splitting on maximal runs of separator characters.  The
flag records whether the previous character belonged to a separator
run. -/
def splitRunsGo (p : Char → Bool) : Bool → List (List Char) → List Char → List Char → List (List Char)
  | _, done, acc, [] => (acc.reverse :: done).reverse
  | inSep, done, acc, c :: rest =>
    if p c then
      if inSep then splitRunsGo p true done acc rest
      else splitRunsGo p true (acc.reverse :: done) [] rest
    else splitRunsGo p false done (c :: acc) rest

/-- JS `str.split(/\s+/)`: split on maximal whitespace runs, keeping the
empty leading/trailing fields JS produces. -/
def jsSplitWS (l : List Char) : List (List Char) :=
  splitRunsGo isWS false [] [] l

/-- Worker for single-character split. -/
def splitCharGo (sep : Char) : List (List Char) → List Char → List Char → List (List Char)
  | done, acc, [] => (acc.reverse :: done).reverse
  | done, acc, c :: rest =>
    if c = sep then splitCharGo sep (acc.reverse :: done) [] rest
    else splitCharGo sep done (c :: acc) rest

/-- JS `str.split(sep)` for a one-character separator (keeps empty
fields, exactly as JS does). -/
def jsSplitChar (sep : Char) (l : List Char) : List (List Char) :=
  splitCharGo sep [] [] l

/-- Join lists with a single-character separator (JS `Array.join`). -/
def joinSep (sep : Char) : List (List Char) → List Char
  | [] => []
  | [x] => x
  | x :: y :: rest => x ++ sep :: joinSep sep (y :: rest)

/-- Match of the regex fragment `.*b` at the head of the list: the dot
does not cross a line terminator, mirroring a JS regex without the `s`
flag. -/
def dotTail (b : List Char) : List Char → Bool
  | [] => seqPrefixOf b []
  | c :: rest =>
    seqPrefixOf b (c :: rest) ||
      (!(c = '\n' || c = '\r' || c = '\u2028' || c = '\u2029') && dotTail b rest)

/-- Unanchored search for the regex `a.*b` (used by the
`deep research.*complex tasks` blacklist entry). -/
def dotStarSearch (a b : List Char) : List Char → Bool
  | [] => a.isEmpty && dotTail b []
  | c :: rest =>
    (seqPrefixOf a (c :: rest) && dotTail b ((c :: rest).drop a.length)) ||
      dotStarSearch a b rest

/-- Helper for `^\d+:\d+`: after the leading digit, consume digits and
then require a colon followed by a digit. -/
def restDigitsColon : List Char → Bool
  | [] => false
  | c :: rest =>
    if c.isDigit then restDigitsColon rest
    else c = ':' && (match rest with | d :: _ => d.isDigit | [] => false)

/-- The regex `^\d+:\d+` (timestamp shapes such as `3:35`). -/
def startsDigitsColonDigits (l : List Char) : Bool :=
  match l with
  | c :: rest => c.isDigit && restDigitsColon rest
  | [] => false

/-! ## Extraction-pipeline classifier (getChatMessages snippet) -/

/-- Case-insensitive unanchored regex literal, e.g. `/fast agent/i`:
search for a lower-case needle in the lower-cased text. -/
def testCI (needle : String) (t : List Char) : Bool :=
  listContains needle.toList (lcList t)

/-- Case-insensitive anchored alternation, e.g. `/^(submit|cancel)/i`. -/
def startsWithAnyCI (opts : List String) (t : List Char) : Bool :=
  opts.any (fun o => seqPrefixOf o.toList (lcList t))

/-- Case-insensitive full-string alternation `/^(...)$/i`. -/
def fullMatchAnyCI (opts : List String) (t : List Char) : Bool :=
  opts.any (fun o => lcList t == o.toList)

/-- The ordered blacklist of the `getChatMessages` inspection snippet,
one matcher per regex literal, in source order. -/
def blacklist : List (List Char → Bool) :=
  [ startsWithAnyCI ["gemini", "claude", "gpt", "model", "opus", "sonnet", "flash"],
    startsWithAnyCI ["pro", "low", "high", "medium", "thinking"],
    startsWithAnyCI ["submit", "cancel", "dismiss", "retry"],
    startsWithAnyCI ["planning", "execution", "verification"],
    fullMatchAnyCI ["agent", "assistant", "user"],
    startsDigitsColonDigits,
    testCI "terminated due to error",
    testCI "troubleshooting guide",
    testCI "can plan before executing",
    fun t => dotStarSearch "deep research".toList "complex tasks".toList (lcList t),
    testCI "conversation mode",
    testCI "fast agent",
    testCI "(thinking)",
    testCI "ask anything",
    testCI "add context",
    testCI "workflows",
    testCI "mentions" ]

/-- Test every blacklist pattern against a (trimmed) text. -/
def blacklistAny (t : List Char) : Bool :=
  blacklist.any (fun p => p t)

/-- The snippet's `isBlacklisted` helper: trim, reject when shorter than
20 characters or fewer than 4 space-separated fields, else scan the
pattern list. -/
def isBlacklisted (text : List Char) : Bool :=
  let trimmed := jsTrim text
  decide (trimmed.length < 20) ||
    decide ((jsSplitChar ' ' trimmed).length < 4) ||
    blacklistAny trimmed

/-- Sentence punctuation test `/[.!?]/`. -/
def hasSentencePunct (t : List Char) : Bool :=
  t.any (fun c => c = '.' || c = '!' || c = '?')

/-- Acceptance condition of the candidate loop in `getChatMessages`:
the element's `innerText` is trimmed, must be nonempty, pass
`isBlacklisted`, have length strictly between 30 and 5000, contain
sentence punctuation and have more than 5 whitespace-separated words. -/
def acceptText (raw : List Char) : Bool :=
  let text := jsTrim raw
  !text.isEmpty && !isBlacklisted text &&
    decide (30 < text.length) && decide (text.length < 5000) &&
    hasSentencePunct text && decide (5 < (jsSplitWS text).length)

/-- Role of an accepted message. -/
inductive Role where
  | user
  | agent
deriving DecidableEq, Repr

/-- Normalized conversation record (role plus truncated content; the
timestamp is wall-clock and not modelled). -/
structure ChatMsg where
  role : Role
  content : List Char
deriving DecidableEq, Repr

/-- One DOM element as seen by the extraction snippet. -/
structure Candidate where
  className : List Char
  innerText : List Char
deriving DecidableEq, Repr

/-- Role classification: lower-cased `className` containing `user` or
`human` marks a user message, anything else is the agent. -/
def roleOf (className : List Char) : Role :=
  let cs := lcList className
  if listContains "user".toList cs || listContains "human".toList cs then Role.user
  else Role.agent

/-- Candidate classification: accepted candidates become records whose
content is the trimmed text truncated to 1500 characters. -/
def classify (c : Candidate) : Option ChatMsg :=
  if acceptText c.innerText then
    some { role := roleOf c.className, content := (jsTrim c.innerText).take 1500 }
  else none

/-- The prioritized candidate container selectors, in source order. -/
def conversationSelectors : List String :=
  [ ".conversation-content",
    ".agent-response",
    ".assistant-message",
    ".user-query",
    "[data-mode-id] .view-lines",
    ".auxiliary-bar .content",
    ".panel-content" ]

/-- The selector loop of `getChatMessages`: the accepted messages of
each selector's candidates are appended to the accumulator, and the
loop stops after the first selector at which the accumulator is
nonempty. -/
def scanSelectors (dom : String → List Candidate) : List String → List ChatMsg → List ChatMsg
  | [], msgs => msgs
  | sel :: rest, msgs =>
    let next := msgs ++ (dom sel).filterMap classify
    if 0 < next.length then next else scanSelectors dom rest next

/-- JS `messages.slice(-20)`: the last (at most) 20 entries. -/
def lastTwenty (l : List ChatMsg) : List ChatMsg :=
  l.drop (l.length - 20)

/-- Result assembly of the snippet: scan the selector list and keep the
last twenty accepted records. -/
def chatMessagesOf (dom : String → List Candidate) : List ChatMsg :=
  lastTwenty (scanSelectors dom conversationSelectors [])

/-! ## Session channel: request/response correlation (connectToTarget) -/

/-- A parsed control-channel message: `id` is absent for out-of-band
protocol events, `error` carries the protocol error message when the
server failed the request, and `result` abstracts the success payload. -/
structure CdpMsg where
  id : Option Nat
  error : Option String
  result : String
deriving DecidableEq, Repr

/-- Settlement of one pending request's deferred result. -/
inductive Outcome where
  | resolved (id : Nat) (v : String)
  | rejected (id : Nat) (e : String)
deriving DecidableEq, Repr

/-- Identifier a settlement belongs to. -/
def outcomeId : Outcome → Nat
  | Outcome.resolved i _ => i
  | Outcome.rejected i _ => i

/-- Settlement dictated by a response message: reject with the error
message when `error` is present, else resolve with the result. -/
def correlatedOutcome (i : Nat) (m : CdpMsg) : Outcome :=
  match m.error with
  | some e => Outcome.rejected i e
  | none => Outcome.resolved i m.result

/-- The `message` handler of `connectToTarget`: when the message carries
a truthy identifier with a pending entry, delete the entry and settle
it; otherwise leave the pending map untouched and settle nothing. -/
def handleMessage (m : CdpMsg) (p : List Nat) : List Nat × List Outcome :=
  match m.id with
  | none => (p, [])
  | some i =>
    if i ≠ 0 ∧ i ∈ p then (p.erase i, [correlatedOutcome i m])
    else (p, [])

/-- Fold `handleMessage` over a whole arrival sequence, collecting every
settlement in arrival order. -/
def processMessages : List CdpMsg → List Nat → List Nat × List Outcome
  | [], p => (p, [])
  | m :: ms, p =>
    let r := handleMessage m p
    let r2 := processMessages ms r.1
    (r2.1, r.2 ++ r2.2)

/-- Transport events observable on the WebSocket underlying a session. -/
inductive WsEvent where
  | openEv
  | message (m : CdpMsg)
  | errorEv
  | closeEv
deriving DecidableEq, Repr

/-- Event dispatch as wired up by `connectToTarget`: only `message`
touches the pending map.  `open` resolves the outer connection promise,
`error` rejects that same (already settled) promise, and for `close`
the source registers no handler at all, so no pending entry is ever
settled by it. -/
def dispatchEvent : WsEvent → List Nat → List Nat × List Outcome
  | WsEvent.message m, p => handleMessage m p
  | WsEvent.openEv, p => (p, [])
  | WsEvent.errorEv, p => (p, [])
  | WsEvent.closeEv, p => (p, [])

/-- State of the `send` closure: the next identifier to assign
(`messageId`, starting at 1) and the pending identifiers. -/
structure SessState where
  nextId : Nat
  pending : List Nat
deriving DecidableEq, Repr

/-- Session state right after `open`. -/
def initSession : SessState := { nextId := 1, pending := [] }

/-- The `send` closure: allocate `messageId++` and register it as
pending; the allocated identifier is returned. -/
def sendReq (st : SessState) : SessState × Nat :=
  ({ nextId := st.nextId + 1, pending := st.pending ++ [st.nextId] }, st.nextId)

/-- Issue a number of requests back to back without awaiting
responses. -/
def issueRequests : Nat → SessState → SessState
  | 0, st => st
  | n + 1, st => issueRequests n (sendReq st).1

/-- Well-formedness of the correlation state: the allocation counter is
positive and the pending identifiers are distinct, positive and below
the counter. -/
def sessionInv (st : SessState) : Prop :=
  0 < st.nextId ∧ st.pending.Nodup ∧ ∀ j ∈ st.pending, 0 < j ∧ j < st.nextId

/-! ## Target directory -/

/-- One discoverable debuggable surface, as served by `/json/list`. -/
structure Target where
  type : String
  title : String
  url : String
  webSocketDebuggerUrl : Option String
deriving DecidableEq, Repr

/-- JS `hay.includes(needle)` on strings. -/
def strContains (hay needle : String) : Bool :=
  listContains needle.toList hay.toList

/-- Page-typed target test. -/
def isPageTarget (t : Target) : Bool := t.type == "page"

/-- The preferred-editor predicate of `findEditorTarget`: a page whose
title contains the product name, does not contain the launchpad marker,
and whose URL is not the protocol inspector UI. -/
def isEditorCandidate (t : Target) : Bool :=
  isPageTarget t && strContains t.title "Antigravity" &&
    !(strContains t.title "Launchpad") && !(strContains t.url "devtools")

/-- The `findEditorTarget` selection: first preferred candidate, else
first page-typed target, else nothing. -/
def findEditorTarget (ts : List Target) : Option Target :=
  match ts.find? isEditorCandidate with
  | some e => some e
  | none => ts.find? isPageTarget

/-- Selection as worded by the specification, for comparison with the
implementation: the first (in list order) target of type page whose
title contains the product name but excludes the secondary-surface
marker and the protocol inspector UI; otherwise the first page-typed
target; otherwise none. -/
def claimSelectEditor (ts : List Target) : Option Target :=
  match (ts.filter isEditorCandidate).head? with
  | some t => some t
  | none => (ts.filter isPageTarget).head?

/-! ## Workspace locator -/

/-- Project-name extraction from the window title via the regex
`^([^-]+)\s*-\s*Antigravity`: everything before the first dash (at
least one character), trimmed, provided the dash is followed by
optional whitespace and the product name. -/
def extractProjectName (title : List Char) : Option (List Char) :=
  let pre := title.takeWhile (fun c => c ≠ '-')
  let rest := title.dropWhile (fun c => c ≠ '-')
  match rest with
  | '-' :: after =>
    if !pre.isEmpty && seqPrefixOf "Antigravity".toList (after.dropWhile isWS) then
      some (jsTrim pre)
    else none
  | _ => none

/-- ASCII letter test used by the drive-letter scan. -/
def isAsciiLetter (c : Char) : Bool :=
  ('A' ≤ c && c ≤ 'Z') || ('a' ≤ c && c ≤ 'z')

/-- First index of a letter immediately followed by a colon (Windows
drive-letter scan of the workspace-path snippet). -/
def findDrive : List Char → Option Nat
  | c :: next :: rest =>
    if isAsciiLetter c && next = ':' then some 0
    else (findDrive (next :: rest)).map (· + 1)
  | _ => none

/-- Path-terminating delimiters for the Windows branch. -/
def winDelims : List (List Char) := [[','], [';'], [' ', '-', ' ']]

/-- Path-terminating delimiters for the Unix branch (adds single and
double quote). -/
def unixDelims : List (List Char) :=
  [[','], [';'], [' ', '-', ' '], [Char.ofNat 39], ['"']]

/-- The snippet's end-index computation: starting at the full length,
each delimiter with a strictly positive first occurrence before the
current end moves the end there. -/
def endIdxFor (delims : List (List Char)) (l : List Char) : Nat :=
  delims.foldl (fun e d =>
    match idxOfSeq d l with
    | some i => if 0 < i && i < e then i else e
    | none => e) l.length

/-- Cut a candidate path at the first delimiter and trim it. -/
def cutAtDelims (delims : List (List Char)) (l : List Char) : List Char :=
  jsTrim (l.take (endIdxFor delims l))

/-- The fixed Unix root prefixes recognised by the snippet, in order. -/
def unixRoots : List (List Char) :=
  ["/home/".toList, "/Users/".toList, "/var/".toList, "/opt/".toList]

/-- First root (in root-list order) that occurs, at its first
occurrence index. -/
def firstUnixRoot : List (List Char) → List Char → Option Nat
  | [], _ => none
  | r :: rs, l =>
    match idxOfSeq r l with
    | some i => some i
    | none => firstUnixRoot rs l

/-- Per-label path extraction of the workspace-path snippet: skip short
sources, then try the drive-letter scan, then the Unix root scan, each
cutting at delimiters and trimming. -/
def extractPathFromLabel (src : List Char) : Option (List Char × Bool) :=
  if src.length < 5 then none
  else
    match findDrive src with
    | some k => some (cutAtDelims winDelims (src.drop k), true)
    | none =>
      match firstUnixRoot unixRoots src with
      | some i => some (cutAtDelims unixDelims (src.drop i), false)
      | none => none

/-- Scan tab labels in order and keep the first extracted path. -/
def scanLabels : List (List Char) → Option (List Char × Bool)
  | [] => none
  | l :: ls =>
    match extractPathFromLabel l with
    | some r => some r
    | none => scanLabels ls

/-- Separator class of the path split: `[\\/]+` on Windows, `\/+` on
Unix. -/
def sepChar (isWindows : Bool) (c : Char) : Bool :=
  if isWindows then c = '\\' || c = '/' else c = '/'

/-- `filePath.split(sep).filter(Boolean)`. -/
def pathSegments (isWindows : Bool) (l : List Char) : List (List Char) :=
  (splitRunsGo (sepChar isWindows) false [] [] l).filter (fun s => !s.isEmpty)

/-- Case-insensitive segment comparison against the project name. -/
def segMatches (pn seg : List Char) : Bool := lcList seg == lcList pn

/-- Windows-style reassembly `parts[0] + backslash + rest.join`; JS
stringifies a missing head as `undefined`. -/
def winJoin (parts : List (List Char)) : List Char :=
  (parts.head?.getD "undefined".toList) ++ '\\' :: joinSep '\\' parts.tail

/-- The pure tail of `getWorkspacePath`: split the found file path into
segments, truncate (inclusively) at the first segment equal to the
project name case-insensitively, else drop the last segment. -/
def computeWorkspacePath (filePath : List Char) (isWindows : Bool)
    (projectName : Option (List Char)) : List Char :=
  let parts := pathSegments isWindows filePath
  let fallback :=
    let parentParts := parts.dropLast
    if isWindows then winJoin parentParts
    else '/' :: joinSep '/' parentParts
  match projectName with
  | none => fallback
  | some pn =>
    match parts.findIdx? (segMatches pn) with
    | some i =>
      if isWindows then winJoin (parts.take (i + 1))
      else '/' :: joinSep '/' (parts.take (i + 1))
    | none => fallback

/-! ## Command facade -/

/-- Scalar parameter values of a protocol request. -/
inductive PVal where
  | s (v : String)
  | n (v : Nat)
  | b (v : Bool)
deriving DecidableEq, Repr

/-- Request parameters as a field list. -/
abbrev Params := List (String × PVal)

/-- The facade error taxonomy. -/
inductive CdpErr where
  | noEditorTarget
  | noControlAddress
  | connectionFailed
  | remoteError (msg : String)
deriving DecidableEq, Repr

/-- Environment of one facade call: the discovered targets, whether the
transport can be established, an oracle giving the remote outcome of
the k-th request sent, the `/json/version` outcome, the tab labels and
data-uri fallback visible to the workspace snippet, and the DOM served
to the extraction snippet. -/
structure World where
  targets : List Target
  connectOk : Bool
  sendResults : Nat → Except String String
  versionResult : Except String String
  labels : List (List Char)
  dataUriPath : Option (List Char × Bool)
  dom : String → List Candidate

/-- Observable state of one facade call: how many requests were sent,
how many times `close()` ran, and the log of sent requests. -/
structure OpState where
  sendCount : Nat
  closeCount : Nat
  sendLog : List (String × Params)
deriving Repr

/-- State at the start of a facade call. -/
def initOpState : OpState := { sendCount := 0, closeCount := 0, sendLog := [] }

/-- One correlated request: logs the method and parameters and yields
the oracle's outcome for this position. -/
def doSend (w : World) (method : String) (ps : Params) (s : OpState) :
    Except String String × OpState :=
  (w.sendResults s.sendCount,
   { s with sendCount := s.sendCount + 1, sendLog := s.sendLog ++ [(method, ps)] })

/-- `connectToTarget` up to the open event: fail when the target lacks
a control address, or when the transport cannot be established. -/
def openSession (w : World) (t : Target) : Except CdpErr Unit :=
  match t.webSocketDebuggerUrl with
  | none => Except.error CdpErr.noControlAddress
  | some _ =>
    if w.connectOk then Except.ok () else Except.error CdpErr.connectionFailed

/-- JS `try body finally client.close()`: the body runs, then exactly
one `close()` happens whatever the body produced; remote error strings
surface as `RemoteError`. -/
def withClose {α : Type} (body : OpState → Except String α × OpState) (s : OpState) :
    Except CdpErr α × OpState :=
  let r := body s
  (r.1.mapError CdpErr.remoteError, { r.2 with closeCount := r.2.closeCount + 1 })

/-- JS `options.format || defaultValue` on an optional string (the
empty string is falsy). -/
def jsOrStr (v : Option String) (d : String) : String :=
  match v with
  | none => d
  | some s => if s = "" then d else s

/-- JS `options.quality || defaultValue` on an optional number (zero is
falsy). -/
def jsOrNat (v : Option Nat) (d : Nat) : Nat :=
  match v with
  | none => d
  | some n => if n = 0 then d else n

/-- Options accepted by `captureScreenshot`. -/
structure ScreenshotOptions where
  format : Option String
  quality : Option Nat
deriving DecidableEq, Repr

/-- captureScreenshot: select target, open session, one capture request
with defaulted options, close. -/
def captureScreenshotOp (w : World) (o : ScreenshotOptions) :
    Except CdpErr String × OpState :=
  match findEditorTarget w.targets with
  | none => (Except.error CdpErr.noEditorTarget, initOpState)
  | some t =>
    match openSession w t with
    | Except.error e => (Except.error e, initOpState)
    | Except.ok _ =>
      withClose (fun s =>
        doSend w "Page.captureScreenshot"
          [("format", PVal.s (jsOrStr o.format "png")),
           ("quality", PVal.n (jsOrNat o.quality 80)),
           ("captureBeyondViewport", PVal.b false)] s) initOpState

/-- getPageMetrics: one layout-metrics request. -/
def getPageMetricsOp (w : World) : Except CdpErr String × OpState :=
  match findEditorTarget w.targets with
  | none => (Except.error CdpErr.noEditorTarget, initOpState)
  | some t =>
    match openSession w t with
    | Except.error e => (Except.error e, initOpState)
    | Except.ok _ =>
      withClose (fun s => doSend w "Page.getLayoutMetrics" [] s) initOpState

/-- The per-character key-down/key-up pair loop of `injectCommand`. -/
def typeChars (w : World) : List Char → OpState → Except String Unit × OpState
  | [], s => (Except.ok (), s)
  | c :: rest, s =>
    match doSend w "Input.dispatchKeyEvent"
      [("type", PVal.s "keyDown"), ("text", PVal.s (String.mk [c])),
       ("key", PVal.s (String.mk [c])),
       ("code", PVal.s ("Key" ++ String.mk [c.toUpper]))] s with
    | (Except.error e, s1) => (Except.error e, s1)
    | (Except.ok _, s1) =>
      match doSend w "Input.dispatchKeyEvent"
        [("type", PVal.s "keyUp"), ("key", PVal.s (String.mk [c])),
         ("code", PVal.s ("Key" ++ String.mk [c.toUpper]))] s1 with
      | (Except.error e, s2) => (Except.error e, s2)
      | (Except.ok _, s2) => typeChars w rest s2

/-- injectCommand: focus snippet, then the per-character loop (the
settle delay has no observable state here). -/
def injectCommandOp (w : World) (text : String) : Except CdpErr String × OpState :=
  match findEditorTarget w.targets with
  | none => (Except.error CdpErr.noEditorTarget, initOpState)
  | some t =>
    match openSession w t with
    | Except.error e => (Except.error e, initOpState)
    | Except.ok _ =>
      withClose (fun s =>
        let r := doSend w "Runtime.evaluate"
          [("expression", PVal.s "focusInputSelectorsSnippet"),
           ("returnByValue", PVal.b true)] s
        match r with
        | (Except.error e, s1) => (Except.error e, s1)
        | (Except.ok _, s1) =>
          match typeChars w text.toList s1 with
          | (Except.error e, s2) => (Except.error e, s2)
          | (Except.ok _, s2) => (Except.ok text, s2)) initOpState

/-- injectAndSubmit: one bulk insertText, then the Enter key pair. -/
def injectAndSubmitOp (w : World) (text : String) : Except CdpErr String × OpState :=
  match findEditorTarget w.targets with
  | none => (Except.error CdpErr.noEditorTarget, initOpState)
  | some t =>
    match openSession w t with
    | Except.error e => (Except.error e, initOpState)
    | Except.ok _ =>
      withClose (fun s =>
        match doSend w "Input.insertText" [("text", PVal.s text)] s with
        | (Except.error e, s1) => (Except.error e, s1)
        | (Except.ok _, s1) =>
          match doSend w "Input.dispatchKeyEvent"
            [("type", PVal.s "keyDown"), ("key", PVal.s "Enter"),
             ("code", PVal.s "Enter"), ("windowsVirtualKeyCode", PVal.n 13),
             ("nativeVirtualKeyCode", PVal.n 13)] s1 with
          | (Except.error e, s2) => (Except.error e, s2)
          | (Except.ok _, s2) =>
            match doSend w "Input.dispatchKeyEvent"
              [("type", PVal.s "keyUp"), ("key", PVal.s "Enter"),
               ("code", PVal.s "Enter"), ("windowsVirtualKeyCode", PVal.n 13),
               ("nativeVirtualKeyCode", PVal.n 13)] s2 with
            | (Except.error e, s3) => (Except.error e, s3)
            | (Except.ok _, s3) => (Except.ok text, s3)) initOpState

/-- focusInput: one focus-strategies evaluation. -/
def focusInputOp (w : World) : Except CdpErr String × OpState :=
  match findEditorTarget w.targets with
  | none => (Except.error CdpErr.noEditorTarget, initOpState)
  | some t =>
    match openSession w t with
    | Except.error e => (Except.error e, initOpState)
    | Except.ok _ =>
      withClose (fun s =>
        doSend w "Runtime.evaluate"
          [("expression", PVal.s "focusStrategiesSnippet"),
           ("returnByValue", PVal.b true)] s) initOpState

/-- getChatMessages: one extraction evaluation whose in-page semantics
are `chatMessagesOf` over the world's DOM. -/
def getChatMessagesOp (w : World) : Except CdpErr (List ChatMsg) × OpState :=
  match findEditorTarget w.targets with
  | none => (Except.error CdpErr.noEditorTarget, initOpState)
  | some t =>
    match openSession w t with
    | Except.error e => (Except.error e, initOpState)
    | Except.ok _ =>
      withClose (fun s =>
        match doSend w "Runtime.evaluate"
          [("expression", PVal.s "chatExtractionSnippet"),
           ("returnByValue", PVal.b true)] s with
        | (Except.error e, s1) => (Except.error e, s1)
        | (Except.ok _, s1) => (Except.ok (chatMessagesOf w.dom), s1)) initOpState

/-- getAgentPanelContent: one panel-lookup evaluation. -/
def getAgentPanelContentOp (w : World) : Except CdpErr String × OpState :=
  match findEditorTarget w.targets with
  | none => (Except.error CdpErr.noEditorTarget, initOpState)
  | some t =>
    match openSession w t with
    | Except.error e => (Except.error e, initOpState)
    | Except.ok _ =>
      withClose (fun s =>
        doSend w "Runtime.evaluate"
          [("expression", PVal.s "agentPanelSnippet"),
           ("returnByValue", PVal.b true)] s) initOpState

/-- getConversationText: one right-panel text evaluation. -/
def getConversationTextOp (w : World) : Except CdpErr String × OpState :=
  match findEditorTarget w.targets with
  | none => (Except.error CdpErr.noEditorTarget, initOpState)
  | some t =>
    match openSession w t with
    | Except.error e => (Except.error e, initOpState)
    | Except.ok _ =>
      withClose (fun s =>
        doSend w "Runtime.evaluate"
          [("expression", PVal.s "conversationTextSnippet"),
           ("returnByValue", PVal.b true)] s) initOpState

/-- getWorkspacePath: unlike the other commands it returns null (no
error) when no editor target exists; otherwise it opens a session,
evaluates the path-scanning snippet (tab labels first, then the
data-uri fallback) and post-processes the found path with
`computeWorkspacePath`. -/
def getWorkspacePathOp (w : World) : Except CdpErr (Option (List Char)) × OpState :=
  match findEditorTarget w.targets with
  | none => (Except.ok none, initOpState)
  | some t =>
    let projectName := extractProjectName t.title.toList
    match openSession w t with
    | Except.error e => (Except.error e, initOpState)
    | Except.ok _ =>
      withClose (fun s =>
        match doSend w "Runtime.evaluate"
          [("expression", PVal.s "workspacePathSnippet"),
           ("returnByValue", PVal.b true)] s with
        | (Except.error e, s1) => (Except.error e, s1)
        | (Except.ok _, s1) =>
          match (match scanLabels w.labels with
                 | some d => some d
                 | none => w.dataUriPath) with
          | none => (Except.ok none, s1)
          | some (fp, isWin) =>
            (Except.ok (some (computeWorkspacePath fp isWin projectName)), s1)) initOpState

/-- Result record of the availability probe. -/
structure AvailResult where
  available : Bool
  browser : Option String
  error : Option String
deriving DecidableEq, Repr

/-- The `/json/version` fetch: its outcome is environmental. -/
def getVersionOp (w : World) : Except String String := w.versionResult

/-- isAvailable: try the version query and report rather than raise;
the result type still admits an exception so that totality is a
statement, not a typing accident. -/
def isAvailableOp (w : World) : Except String AvailResult :=
  match getVersionOp w with
  | Except.ok b => Except.ok { available := true, browser := some b, error := none }
  | Except.error e => Except.ok { available := false, browser := none, error := some e }

/-- A facade call actually opened a session: a target was selected and
the transport came up. -/
def sessionOpens (w : World) : Prop :=
  ∃ t, findEditorTarget w.targets = some t ∧ openSession w t = Except.ok ()

/-- The main editor target used by concrete worlds below. -/
def tEditor : Target :=
  { type := "page", title := "MyProject - Antigravity", url := "app://editor",
    webSocketDebuggerUrl := some "ws://127.0.0.1:9222/page/1" }

/-- A world whose session opens and whose every request fails with a
protocol error. -/
def wOpen : World :=
  { targets := [tEditor], connectOk := true,
    sendResults := fun _ => Except.error "boom",
    versionResult := Except.ok "Chrome/Antigravity",
    labels := [], dataUriPath := none, dom := fun _ => [] }

/-- A world whose discovery endpoint is unreachable. -/
def wUnreachable : World :=
  { targets := [], connectOk := false,
    sendResults := fun _ => Except.error "unreachable",
    versionResult := Except.error "fetch failed ECONNREFUSED",
    labels := [], dataUriPath := none, dom := fun _ => [] }

/-- The example editor page of the specification scenario. -/
def exEditor : Target :=
  { type := "page", title := "MyProject - Antigravity", url := "app://editor-main",
    webSocketDebuggerUrl := some "ws://page/1" }

/-- The example launchpad page of the specification scenario. -/
def exLaunchpad : Target :=
  { type := "page", title := "Antigravity - Launchpad", url := "app://launchpad",
    webSocketDebuggerUrl := some "ws://page/2" }

/-- A non-page-only world, used to exercise the no-editor paths. -/
def wNoPage : World :=
  { targets := [{ type := "worker", title := "Antigravity", url := "app://w",
                  webSocketDebuggerUrl := some "ws://w" }],
    connectOk := true, sendResults := fun _ => Except.ok "ok",
    versionResult := Except.ok "Chrome", labels := [], dataUriPath := none,
    dom := fun _ => [] }

/-- Acceptance condition exactly as the claim words it (without the
length-over-30 and under-5000 bounds of the code): at least 20
characters, at least 4 space-separated words, no blacklist match,
sentence punctuation, and more than 5 whitespace-separated words, all
on the trimmed visible text. -/
def claimAcceptC4 (raw : List Char) : Bool :=
  let t := jsTrim raw
  decide (20 ≤ t.length) && decide (4 ≤ (jsSplitChar ' ' t).length) &&
    !(blacklistAny t) && hasSentencePunct t && decide (5 < (jsSplitWS t).length)

/-- The prose sentence accepted by the classifier in the scenarios
below. -/
def goodProse : String :=
  "The function failed because the input was malformed, please retry."

/-- A DOM in which the first selector yields only a rejected candidate
while the second selector yields an accepted one. -/
def cexDom : String → List Candidate := fun sel =>
  if sel = ".conversation-content" then
    [{ className := "button".toList, innerText := "Submit".toList }]
  else if sel = ".agent-response" then
    [{ className := "agent-turn".toList, innerText := goodProse.toList }]
  else []

/-! ## Theorems -/

/-! ## Lemmas about the string primitives -/

/-- Lower-casing never changes whether a character is whitespace. -/
theorem isWS_lcChar (c : Char) : isWS (lcChar c) = isWS c := by
  unfold lcChar
  split <;> rfl

/-- A nonempty all-non-whitespace prefix survives the removal of
trailing whitespace. -/
theorem seqPrefixOf_dropTrailingWS (needle : List Char) (hne : needle ≠ [])
    (hws : ∀ c ∈ needle, isWS c = false) :
    ∀ l : List Char, seqPrefixOf needle l = true →
      seqPrefixOf needle (dropTrailingWS l) = true := by
  induction needle with
  | nil => exact absurd rfl hne
  | cons a as ih =>
    intro l hpre
    cases l with
    | nil => simp [seqPrefixOf] at hpre
    | cons b bs =>
      rw [seqPrefixOf, Bool.and_eq_true, beq_iff_eq] at hpre
      obtain ⟨hab, hrest⟩ := hpre
      have hb : isWS b = false := by
        rw [← hab]; exact hws a (List.mem_cons_self a as)
      have hstep : dropTrailingWS (b :: bs) = b :: dropTrailingWS bs := by
        simp only [dropTrailingWS]
        simp [hb]
      rw [hstep, seqPrefixOf, Bool.and_eq_true, beq_iff_eq]
      refine ⟨hab, ?_⟩
      by_cases has : as = []
      · subst has; rfl
      · exact ih has (fun c hc => hws c (List.mem_cons_of_mem a hc)) bs hrest

/-- A prefix occurrence is in particular a substring occurrence. -/
theorem listContains_of_seqPrefixOf (needle : List Char) :
    ∀ t, seqPrefixOf needle t = true → listContains needle t = true := by
  intro t h
  cases t with
  | nil =>
    cases needle with
    | nil => rfl
    | cons a as => simp [seqPrefixOf] at h
  | cons c rest => rw [listContains]; simp [h]

/-- A nonempty all-non-whitespace substring survives the removal of
trailing whitespace. -/
theorem listContains_dropTrailingWS (needle : List Char) (hne : needle ≠ [])
    (hws : ∀ c ∈ needle, isWS c = false) :
    ∀ l : List Char, listContains needle l = true →
      listContains needle (dropTrailingWS l) = true := by
  intro l
  induction l with
  | nil =>
    intro h
    rw [listContains, List.isEmpty_iff] at h
    exact absurd h hne
  | cons c rest ih =>
    intro h
    rw [listContains, Bool.or_eq_true] at h
    rcases h with hpre | hsub
    · exact listContains_of_seqPrefixOf needle _
        (seqPrefixOf_dropTrailingWS needle hne hws (c :: rest) hpre)
    · have hr := ih hsub
      have hrne : dropTrailingWS rest ≠ [] := by
        intro hnil
        rw [hnil, listContains, List.isEmpty_iff] at hr
        exact hne hr
      have hstep : dropTrailingWS (c :: rest) = c :: dropTrailingWS rest := by
        simp only [dropTrailingWS]
        simp [hrne]
      rw [hstep, listContains, Bool.or_eq_true]
      exact Or.inr hr

/-- A nonempty all-non-whitespace substring survives the removal of
leading whitespace. -/
theorem listContains_dropWhileWS (needle : List Char) (hne : needle ≠ [])
    (hws : ∀ c ∈ needle, isWS c = false) :
    ∀ l : List Char, listContains needle l = true →
      listContains needle (l.dropWhile isWS) = true := by
  intro l
  induction l with
  | nil => intro h; exact h
  | cons c rest ih =>
    intro h
    rw [List.dropWhile_cons]
    by_cases hc : isWS c = true
    · rw [listContains, Bool.or_eq_true] at h
      rcases h with hpre | hsub
      · cases needle with
        | nil => exact absurd rfl hne
        | cons a as =>
          rw [seqPrefixOf, Bool.and_eq_true, beq_iff_eq] at hpre
          have : isWS a = false := hws a (List.mem_cons_self a as)
          rw [hpre.1] at this
          rw [this] at hc
          exact absurd hc (by simp)
      · simp only [hc, if_true]
        exact ih hsub
    · simp only [Bool.not_eq_true] at hc
      simp only [hc]
      simpa using h

/-- A nonempty all-non-whitespace substring survives JS `trim`. -/
theorem listContains_jsTrim (needle : List Char) (hne : needle ≠ [])
    (hws : ∀ c ∈ needle, isWS c = false)
    (l : List Char) (h : listContains needle l = true) :
    listContains needle (jsTrim l) = true :=
  listContains_dropWhileWS needle hne hws _
    (listContains_dropTrailingWS needle hne hws l h)

/-- Lower-casing commutes with the removal of leading whitespace. -/
theorem lcList_dropWhileWS (l : List Char) :
    lcList (l.dropWhile isWS) = (lcList l).dropWhile isWS := by
  induction l with
  | nil => rfl
  | cons c rest ih =>
    simp only [lcList, List.map_cons, List.dropWhile_cons, isWS_lcChar]
    by_cases hc : isWS c = true
    · simp only [hc, if_true]
      exact ih
    · simp only [Bool.not_eq_true] at hc
      simp [hc, lcList]

/-- Lower-casing commutes with the removal of trailing whitespace. -/
theorem lcList_dropTrailingWS (l : List Char) :
    lcList (dropTrailingWS l) = dropTrailingWS (lcList l) := by
  induction l with
  | nil => rfl
  | cons c rest ih =>
    simp only [lcList, List.map_cons] at *
    simp only [dropTrailingWS]
    rw [← ih]
    by_cases hr : dropTrailingWS rest = []
    · simp [hr, lcList, isWS_lcChar]
      by_cases hc : isWS c = true
      · simp [hc]
      · simp only [Bool.not_eq_true] at hc
        simp [hc, lcList]
    · have hr' : ¬ lcList (dropTrailingWS rest) = [] := by
        simpa [lcList] using hr
      simp [hr, hr', lcList]

/-- Lower-casing commutes with trimming. -/
theorem lcList_jsTrim (l : List Char) :
    lcList (jsTrim l) = jsTrim (lcList l) := by
  rw [jsTrim, jsTrim, lcList_dropWhileWS, lcList_dropTrailingWS]

/-- Removing leading whitespace is idempotent. -/
theorem dropWhileWS_idem (l : List Char) :
    (l.dropWhile isWS).dropWhile isWS = l.dropWhile isWS := by
  induction l with
  | nil => rfl
  | cons c rest ih =>
    rw [List.dropWhile_cons]
    by_cases hc : isWS c = true
    · simp only [hc, if_true]
      exact ih
    · simp only [Bool.not_eq_true] at hc
      simp [List.dropWhile_cons, hc]

/-- Removing trailing whitespace is idempotent. -/
theorem dropTrailingWS_idem (l : List Char) :
    dropTrailingWS (dropTrailingWS l) = dropTrailingWS l := by
  induction l with
  | nil => rfl
  | cons c rest ih =>
    simp only [dropTrailingWS]
    by_cases hA : dropTrailingWS rest = [] ∧ isWS c = true
    · simp [hA.1, hA.2, dropTrailingWS]
    · have : ¬ (decide (dropTrailingWS rest = []) && isWS c) = true := by
        simp only [Bool.and_eq_true, decide_eq_true_eq]
        exact hA
      simp only [this, if_neg, if_false]
      simp only [dropTrailingWS, ih]
      simp [this]

/-- The two halves of trimming commute. -/
theorem dropTrailingWS_dropWhileWS_comm (l : List Char) :
    dropTrailingWS (l.dropWhile isWS) = (dropTrailingWS l).dropWhile isWS := by
  induction l with
  | nil => rfl
  | cons c rest ih =>
    rw [List.dropWhile_cons]
    by_cases hc : isWS c = true
    · simp only [hc, if_true]
      rw [ih]
      simp only [dropTrailingWS]
      by_cases hr : dropTrailingWS rest = []
      · simp [hr, hc]
      · simp [hr, List.dropWhile_cons, hc]
    · simp only [Bool.not_eq_true] at hc
      simp only [hc, if_false, Bool.false_eq_true]
      simp only [dropTrailingWS]
      by_cases hr : dropTrailingWS rest = []
      · simp [hr, hc, List.dropWhile_cons]
      · simp [hr, hc, List.dropWhile_cons]

/-- JS `trim` is idempotent. -/
theorem jsTrim_idem (l : List Char) : jsTrim (jsTrim l) = jsTrim l := by
  rw [jsTrim, jsTrim, dropTrailingWS_dropWhileWS_comm, dropTrailingWS_idem,
    dropWhileWS_idem]

theorem sessionInv_init : sessionInv initSession := by
  refine ⟨Nat.one_pos, List.nodup_nil, ?_⟩
  intro j hj
  simp [initSession] at hj

theorem sessionInv_sendReq (st : SessState) (h : sessionInv st) :
    sessionInv (sendReq st).1 := by
  obtain ⟨hpos, hnd, hbound⟩ := h
  refine ⟨by simp [sendReq], ?_, ?_⟩
  · rw [sendReq, List.nodup_append]
    refine ⟨hnd, List.nodup_singleton _, ?_⟩
    intro j hj hj'
    rw [List.mem_singleton] at hj'
    subst hj'
    exact absurd (hbound _ hj).2 (lt_irrefl _)
  · intro j hj
    rw [sendReq] at hj
    simp only [List.mem_append, List.mem_singleton] at hj
    simp only [sendReq]
    rcases hj with hj | hj
    · obtain ⟨h1, h2⟩ := hbound j hj
      exact ⟨h1, by omega⟩
    · subst hj
      exact ⟨hpos, by omega⟩

theorem sessionInv_issueRequests (n : Nat) (st : SessState)
    (h : sessionInv st) : sessionInv (issueRequests n st) := by
  induction n generalizing st with
  | zero => exact h
  | succ k ih => exact ih _ (sessionInv_sendReq st h)

/-! ## Correlation lemmas -/

theorem outcomeId_correlatedOutcome (i : Nat) (m : CdpMsg) :
    outcomeId (correlatedOutcome i m) = i := by
  unfold correlatedOutcome
  cases m.error <;> rfl

theorem handleMessage_pending_subset (m : CdpMsg) (p : List Nat) :
    ∀ j ∈ (handleMessage m p).1, j ∈ p := by
  intro j hj
  rcases hm : m.id with _ | i
  · simp only [handleMessage, hm] at hj
    exact hj
  · simp only [handleMessage, hm] at hj
    by_cases hc : i ≠ 0 ∧ i ∈ p
    · rw [if_pos hc] at hj
      exact List.mem_of_mem_erase hj
    · rw [if_neg hc] at hj
      exact hj

theorem handleMessage_nodup (m : CdpMsg) (p : List Nat) (h : p.Nodup) :
    (handleMessage m p).1.Nodup := by
  rcases hm : m.id with _ | i
  · simpa only [handleMessage, hm] using h
  · simp only [handleMessage, hm]
    by_cases hc : i ≠ 0 ∧ i ∈ p
    · rw [if_pos hc]
      exact List.Nodup.erase i h
    · rw [if_neg hc]
      exact h

theorem processMessages_no_out (msgs : List CdpMsg) (p : List Nat) (i : Nat)
    (h : i ∉ p) :
    ((processMessages msgs p).2.filter (fun o => outcomeId o == i)).length = 0 := by
  induction msgs generalizing p with
  | nil => simp [processMessages]
  | cons m ms ih =>
    simp only [processMessages, List.filter_append, List.length_append]
    have h2 : i ∉ (handleMessage m p).1 := fun hmem =>
      h (handleMessage_pending_subset m p i hmem)
    have h1 : ((handleMessage m p).2.filter (fun o => outcomeId o == i)).length = 0 := by
      rcases hm : m.id with _ | j
      · simp [handleMessage, hm]
      · simp only [handleMessage, hm]
        by_cases hc : j ≠ 0 ∧ j ∈ p
        · rw [if_pos hc]
          have hne : j ≠ i := fun he => h (he ▸ hc.2)
          simp [outcomeId_correlatedOutcome, hne]
        · rw [if_neg hc]
          simp
    rw [h1, ih _ h2]

theorem processMessages_count_le_one (msgs : List CdpMsg) (p : List Nat)
    (i : Nat) (hnd : p.Nodup) :
    ((processMessages msgs p).2.filter (fun o => outcomeId o == i)).length ≤ 1 := by
  induction msgs generalizing p with
  | nil => simp [processMessages]
  | cons m ms ih =>
    simp only [processMessages, List.filter_append, List.length_append]
    rcases hm : m.id with _ | j
    · have hstep : handleMessage m p = (p, []) := by simp [handleMessage, hm]
      rw [hstep]
      simpa using ih p hnd
    · by_cases hc : j ≠ 0 ∧ j ∈ p
      · have hstep : handleMessage m p = (p.erase j, [correlatedOutcome j m]) := by
          simp only [handleMessage, hm]
          rw [if_pos hc]
        rw [hstep]
        by_cases hji : j = i
        · subst hji
          have hnm : j ∉ p.erase j := List.Nodup.not_mem_erase hnd
          have h0 := processMessages_no_out ms (p.erase j) j hnm
          simp [outcomeId_correlatedOutcome, h0]
        · have h1 : (([correlatedOutcome j m]).filter (fun o => outcomeId o == i)).length = 0 := by
            simp [outcomeId_correlatedOutcome, hji]
          rw [h1]
          simpa using ih _ (List.Nodup.erase j hnd)
      · have hstep : handleMessage m p = (p, []) := by
          simp only [handleMessage, hm]
          rw [if_neg hc]
        rw [hstep]
        simpa using ih p hnd

/-- C1: on an open session, an arriving response carrying identifier
`id` settles (resolving with its result, or rejecting with its error
message, per `correlatedOutcome`) exactly the pending request with that
identifier, removes its pending entry so a redelivery settles nothing,
and leaves every other pending request untouched; a response whose
identifier matches no pending request (or no identifier at all) changes
nothing; and over any arrival sequence each identifier is settled at
most once. -/
theorem claim1_response_correlation (p : List Nat) (m : CdpMsg) (i : Nat)
    (hnd : p.Nodup) (hid : m.id = some i) (hi : i ≠ 0) :
    (i ∈ p →
      handleMessage m p = (p.erase i, [correlatedOutcome i m]) ∧
      i ∉ (handleMessage m p).1 ∧
      (∀ j, j ≠ i → (j ∈ (handleMessage m p).1 ↔ j ∈ p)) ∧
      (handleMessage m ((handleMessage m p).1)).2 = []) ∧
    (i ∉ p → handleMessage m p = (p, [])) ∧
    (∀ m' : CdpMsg, (∀ k, m'.id = some k → k = 0 ∨ k ∉ p) →
      handleMessage m' p = (p, [])) ∧
    (∀ msgs : List CdpMsg,
      ((processMessages msgs p).2.filter (fun o => outcomeId o == i)).length ≤ 1) := by
  refine ⟨?_, ?_, ?_, ?_⟩
  · intro hmem
    have hstep : handleMessage m p = (p.erase i, [correlatedOutcome i m]) := by
      simp only [handleMessage, hid]
      rw [if_pos ⟨hi, hmem⟩]
    refine ⟨hstep, ?_, ?_, ?_⟩
    · rw [hstep]
      exact List.Nodup.not_mem_erase hnd
    · intro j hj
      rw [hstep]
      exact List.mem_erase_of_ne hj
    · rw [hstep]
      simp [handleMessage, hid, (List.Nodup.not_mem_erase hnd : i ∉ p.erase i)]
  · intro hmem
    simp only [handleMessage, hid]
    rw [if_neg (fun hcon => hmem hcon.2)]
  · intro m' hm'
    rcases hm : m'.id with _ | k
    · simp [handleMessage, hm]
    · simp only [handleMessage, hm]
      rw [if_neg ?_]
      rcases hm' k hm with hk | hk
      · exact fun hcon => hcon.1 hk
      · exact fun hcon => hk hcon.2
  · intro msgs
    exact processMessages_count_le_one msgs p i hnd

/-- Witness for C1: pending requests 1 and 2; the response for id 1
settles exactly request 1, and a response for the unknown id 3 is
ignored. -/
theorem claim1_response_correlation_witness :
    handleMessage ⟨some 1, none, "payload"⟩ [1, 2] = ([2], [Outcome.resolved 1 "payload"]) ∧
    handleMessage ⟨some 3, none, "x"⟩ [1, 2] = ([1, 2], []) := by
  constructor
  · have h := (claim1_response_correlation [1, 2] ⟨some 1, none, "payload"⟩ 1
      (by decide) rfl (by decide)).1 (by decide)
    rw [h.1]
    rfl
  · exact (claim1_response_correlation [1, 2] ⟨some 3, none, "x"⟩ 3
      (by decide) rfl (by decide)).2.1 (by decide)

/-- C5 counterexample: with request 1 still pending, the close event
settles nothing — the pending entry survives and no rejection is
emitted, because `connectToTarget` registers no close handler.  This
refutes the claim that pending requests are rejected at session
close. -/
theorem claim5_counterexample :
    dispatchEvent WsEvent.closeEv [1] = ([1], []) := rfl

/-- C5 amended: if a session closes while requests are pending, those
requests are silently dropped — the close event is dispatched to no
handler, so every pending entry survives unchanged and no deferred
result is rejected (or resolved). -/
theorem claim5_close_silently_drops (p : List Nat) :
    dispatchEvent WsEvent.closeEv p = (p, []) := rfl

/-! ## Facade lemmas -/

theorem doSend_closeCount (w : World) (m : String) (ps : Params) (s : OpState) :
    ((doSend w m ps s).2).closeCount = s.closeCount := rfl

theorem typeChars_closeCount (w : World) (cs : List Char) :
    ∀ s : OpState, ((typeChars w cs s).2).closeCount = s.closeCount := by
  induction cs with
  | nil => intro s; rfl
  | cons c rest ih =>
    intro s
    simp only [typeChars, doSend]
    rcases w.sendResults s.sendCount with e | v
    · rfl
    · dsimp only
      rcases w.sendResults (s.sendCount + 1) with e2 | v2
      · rfl
      · dsimp only
        rw [ih]

theorem withClose_closeCount {α : Type} (body : OpState → Except String α × OpState)
    (s : OpState) (hbody : ((body s).2).closeCount = s.closeCount) :
    ((withClose body s).2).closeCount = s.closeCount + 1 := by
  simp only [withClose]
  simp [hbody]

/-- C2: every facade operation that successfully opens a session runs
`close()` exactly once whatever the request outcomes are — the send
oracle is universally quantified, so success, protocol errors and
exceptions mid-sequence are all covered. -/
theorem claim2_close_exactly_once (w : World) (o : ScreenshotOptions)
    (t1 t2 : String) (h : sessionOpens w) :
    ((captureScreenshotOp w o).2).closeCount = 1 ∧
    ((getPageMetricsOp w).2).closeCount = 1 ∧
    ((injectCommandOp w t1).2).closeCount = 1 ∧
    ((injectAndSubmitOp w t2).2).closeCount = 1 ∧
    ((focusInputOp w).2).closeCount = 1 ∧
    ((getChatMessagesOp w).2).closeCount = 1 ∧
    ((getAgentPanelContentOp w).2).closeCount = 1 ∧
    ((getConversationTextOp w).2).closeCount = 1 ∧
    ((getWorkspacePathOp w).2).closeCount = 1 := by
  obtain ⟨t, hf, ho⟩ := h
  refine ⟨?_, ?_, ?_, ?_, ?_, ?_, ?_, ?_, ?_⟩
  · simp only [captureScreenshotOp, hf, ho]
    exact withClose_closeCount _ _ rfl
  · simp only [getPageMetricsOp, hf, ho]
    exact withClose_closeCount _ _ rfl
  · simp only [injectCommandOp, hf, ho]
    apply withClose_closeCount
    simp only [doSend]
    rcases w.sendResults initOpState.sendCount with e | v
    · rfl
    · dsimp only
      rcases htc : typeChars w t1.toList
        { sendCount := initOpState.sendCount + 1, closeCount := initOpState.closeCount,
          sendLog := initOpState.sendLog ++
            [("Runtime.evaluate",
              [("expression", PVal.s "focusInputSelectorsSnippet"),
               ("returnByValue", PVal.b true)])] } with ⟨r2, s2⟩
      have h2 : s2.closeCount = initOpState.closeCount := by
        have h3 := typeChars_closeCount w t1.toList
          { sendCount := initOpState.sendCount + 1, closeCount := initOpState.closeCount,
            sendLog := initOpState.sendLog ++
              [("Runtime.evaluate",
                [("expression", PVal.s "focusInputSelectorsSnippet"),
                 ("returnByValue", PVal.b true)])] }
        rw [htc] at h3
        exact h3
      rcases r2 with e2 | v2 <;> simp [h2]
  · simp only [injectAndSubmitOp, hf, ho]
    apply withClose_closeCount
    simp only [doSend]
    rcases w.sendResults initOpState.sendCount with e | v
    · rfl
    · dsimp only
      rcases w.sendResults (initOpState.sendCount + 1) with e2 | v2
      · rfl
      · dsimp only
        rcases w.sendResults (initOpState.sendCount + 1 + 1) with e3 | v3
        · rfl
        · rfl
  · simp only [focusInputOp, hf, ho]
    exact withClose_closeCount _ _ rfl
  · simp only [getChatMessagesOp, hf, ho]
    apply withClose_closeCount
    simp only [doSend]
    rcases w.sendResults initOpState.sendCount with e | v
    · rfl
    · rfl
  · simp only [getAgentPanelContentOp, hf, ho]
    exact withClose_closeCount _ _ rfl
  · simp only [getConversationTextOp, hf, ho]
    exact withClose_closeCount _ _ rfl
  · simp only [getWorkspacePathOp, hf, ho]
    apply withClose_closeCount
    simp only [doSend]
    rcases w.sendResults initOpState.sendCount with e | v
    · rfl
    · dsimp only
      rcases scanLabels w.labels with _ | ⟨fp, isWin⟩
      · dsimp only
        rcases w.dataUriPath with _ | ⟨fp2, isWin2⟩ <;> rfl
      · rfl

/-- Witness for C2: in a concrete world where the session opens and the
request then fails with a protocol error, close still runs exactly
once. -/
theorem claim2_close_exactly_once_witness :
    ((captureScreenshotOp wOpen { format := none, quality := none }).2).closeCount = 1 ∧
    ((getChatMessagesOp wOpen).2).closeCount = 1 := by
  have h := claim2_close_exactly_once wOpen { format := none, quality := none }
    "hi" "ok" ⟨tEditor, rfl, rfl⟩
  exact ⟨h.1, h.2.2.2.2.2.1⟩

/-- C6: isAvailable never raises: for every world it returns a value —
available with the browser product identifier when the version query
succeeds, and unavailable with the failure reason when anything fails,
including an unreachable discovery endpoint. -/
theorem claim6_isAvailable_total (w : World) :
    (∃ r, isAvailableOp w = Except.ok r) ∧
    (∀ b, w.versionResult = Except.ok b →
      isAvailableOp w = Except.ok { available := true, browser := some b, error := none }) ∧
    (∀ e, w.versionResult = Except.error e →
      isAvailableOp w = Except.ok { available := false, browser := none, error := some e }) := by
  refine ⟨?_, ?_, ?_⟩
  · rcases hv : w.versionResult with e | b
    · exact ⟨{ available := false, browser := none, error := some e },
        by simp [isAvailableOp, getVersionOp, hv]⟩
    · exact ⟨{ available := true, browser := some b, error := none },
        by simp [isAvailableOp, getVersionOp, hv]⟩
  · intro b hb
    simp [isAvailableOp, getVersionOp, hb]
  · intro e he
    simp [isAvailableOp, getVersionOp, he]

/-- Witness for C6: against the unreachable endpoint the probe returns
an unavailable report instead of raising. -/
theorem claim6_isAvailable_total_witness :
    isAvailableOp wUnreachable =
      Except.ok { available := false, browser := none,
                  error := some "fetch failed ECONNREFUSED" } :=
  (claim6_isAvailable_total wUnreachable).2.2 "fetch failed ECONNREFUSED" rfl

/-- C10: captureScreenshot picks its defaults with logical-or, so they
apply to every falsy option value, not only to absent ones: quality 0
is sent as 80 and the empty-string format is sent as png. -/
theorem claim10_falsy_defaults (w : World) (o : ScreenshotOptions)
    (h : sessionOpens w) :
    ((captureScreenshotOp w { format := some "", quality := some 0 }).2).sendLog =
      [("Page.captureScreenshot",
        [("format", PVal.s "png"), ("quality", PVal.n 80),
         ("captureBeyondViewport", PVal.b false)])] ∧
    ((captureScreenshotOp w o).2).sendLog =
      [("Page.captureScreenshot",
        [("format", PVal.s (jsOrStr o.format "png")),
         ("quality", PVal.n (jsOrNat o.quality 80)),
         ("captureBeyondViewport", PVal.b false)])] ∧
    (∀ q, q = some 0 ∨ q = none → jsOrNat q 80 = 80) ∧
    (∀ f, f = some "" ∨ f = none → jsOrStr f "png" = "png") := by
  obtain ⟨t, hf, ho⟩ := h
  refine ⟨?_, ?_, ?_, ?_⟩
  · simp only [captureScreenshotOp, hf, ho]
    rfl
  · simp only [captureScreenshotOp, hf, ho]
    rfl
  · intro q hq
    rcases hq with hq | hq <;> simp [hq, jsOrNat]
  · intro f hf2
    rcases hf2 with hf2 | hf2 <;> simp [hf2, jsOrStr]

/-- Witness for C10: with the all-send-fail open world, calling with
quality 0 and empty format logs quality 80 and format png. -/
theorem claim10_falsy_defaults_witness :
    ((captureScreenshotOp wOpen { format := some "", quality := some 0 }).2).sendLog =
      [("Page.captureScreenshot",
        [("format", PVal.s "png"), ("quality", PVal.n 80),
         ("captureBeyondViewport", PVal.b false)])] :=
  (claim10_falsy_defaults wOpen { format := none, quality := none }
    ⟨tEditor, rfl, rfl⟩).1

/-- The first element satisfying a predicate is the head of the
filtered list. -/
theorem find_eq_filter_head {α : Type} (p : α → Bool) :
    ∀ l : List α, l.find? p = (l.filter p).head? := by
  intro l
  induction l with
  | nil => rfl
  | cons a t ih =>
    by_cases h : p a = true
    · rw [List.find?_cons_of_pos _ h, List.filter_cons_of_pos h]
      rfl
    · rw [List.find?_cons_of_neg _ h, List.filter_cons_of_neg h, ih]

/-- C3 counterexample: with no page-typed target at all, the calling
command `getWorkspacePath` does not signal NoEditorTarget — it returns
null — so not every calling command signals the condition. -/
theorem claim3_counterexample :
    (wNoPage.targets.all fun t => !(isPageTarget t)) = true ∧
    (getWorkspacePathOp wNoPage).1 = Except.ok none ∧
    (getWorkspacePathOp wNoPage).1 ≠ Except.error CdpErr.noEditorTarget := by
  refine ⟨rfl, rfl, ?_⟩
  intro hcon
  rw [show (getWorkspacePathOp wNoPage).1 = Except.ok none from rfl] at hcon
  exact Except.noConfusion hcon

/-- C3 amended: `findEditorTarget` returns the first page-typed target
whose title contains the product name, excludes the launchpad marker
and excludes the inspector UI, else the first page-typed target (shown
by refinement against the claim-worded selection); the given two-page
scenario selects the `MyProject - Antigravity` page in either order;
and when no page-typed target exists, each calling command except
`getWorkspacePath` signals NoEditorTarget, while `getWorkspacePath`
returns null. -/
theorem claim3_editor_selection (ts : List Target) (w : World)
    (o : ScreenshotOptions) (t1 t2 : String)
    (hnp : ∀ t ∈ w.targets, isPageTarget t = false) :
    findEditorTarget ts = claimSelectEditor ts ∧
    findEditorTarget [exEditor, exLaunchpad] = some exEditor ∧
    findEditorTarget [exLaunchpad, exEditor] = some exEditor ∧
    (captureScreenshotOp w o).1 = Except.error CdpErr.noEditorTarget ∧
    (getPageMetricsOp w).1 = Except.error CdpErr.noEditorTarget ∧
    (injectCommandOp w t1).1 = Except.error CdpErr.noEditorTarget ∧
    (injectAndSubmitOp w t2).1 = Except.error CdpErr.noEditorTarget ∧
    (focusInputOp w).1 = Except.error CdpErr.noEditorTarget ∧
    (getChatMessagesOp w).1 = Except.error CdpErr.noEditorTarget ∧
    (getAgentPanelContentOp w).1 = Except.error CdpErr.noEditorTarget ∧
    (getConversationTextOp w).1 = Except.error CdpErr.noEditorTarget ∧
    (getWorkspacePathOp w).1 = Except.ok none := by
  have hnone : findEditorTarget w.targets = none := by
    unfold findEditorTarget
    have h1 : w.targets.find? isEditorCandidate = none := by
      rw [List.find?_eq_none]
      intro t ht
      simp [isEditorCandidate, hnp t ht]
    have h2 : w.targets.find? isPageTarget = none := by
      rw [List.find?_eq_none]
      intro t ht
      simp [hnp t ht]
    rw [h1, h2]
  refine ⟨?_, by decide, by decide, ?_, ?_, ?_, ?_, ?_, ?_, ?_, ?_, ?_⟩
  · unfold findEditorTarget claimSelectEditor
    rw [find_eq_filter_head, find_eq_filter_head]
  · simp only [captureScreenshotOp, hnone]
  · simp only [getPageMetricsOp, hnone]
  · simp only [injectCommandOp, hnone]
  · simp only [injectAndSubmitOp, hnone]
  · simp only [focusInputOp, hnone]
  · simp only [getChatMessagesOp, hnone]
  · simp only [getAgentPanelContentOp, hnone]
  · simp only [getConversationTextOp, hnone]
  · simp only [getWorkspacePathOp, hnone]

/-- Witness for C3: concrete selection in the reversed scenario and the
NoEditorTarget signal of a concrete pageless world. -/
theorem claim3_editor_selection_witness :
    findEditorTarget [exLaunchpad, exEditor] = some exEditor ∧
    (captureScreenshotOp wNoPage { format := none, quality := none }).1 =
      Except.error CdpErr.noEditorTarget := by
  have h := claim3_editor_selection [] wNoPage { format := none, quality := none }
    "a" "b" (by decide)
  exact ⟨h.2.2.1, h.2.2.2.1⟩

/-- Bridge from a declarative first-match description to `findIdx?`. -/
theorem findIdx_first {α : Type} (p : α → Bool) (l : List α) (d : α) (i : Nat)
    (hi : i < l.length)
    (hp : p (l.getD i d) = true)
    (hb : ∀ j, j < i → p (l.getD j d) = false) :
    l.findIdx? p = some i := by
  rw [List.findIdx?_eq_some_iff_getElem]
  refine ⟨hi, ?_, ?_⟩
  · have hg : l[i] = l.getD i d := by
      rw [List.getD_eq_getElem?_getD, List.getElem?_eq_getElem hi]
      rfl
    rw [hg]
    exact hp
  · intro j hji
    have hj : j < l.length := Nat.lt_trans hji hi
    have hg : l[j] = l.getD j d := by
      rw [List.getD_eq_getElem?_getD, List.getElem?_eq_getElem hj]
      rfl
    rw [hg, hb j hji]
    exact Bool.false_ne_true

/-- Bridge from an everywhere-false predicate to a failed `findIdx?`. -/
theorem findIdx_none {α : Type} (p : α → Bool) (l : List α)
    (h : ∀ x ∈ l, p x = false) : l.findIdx? p = none := by
  rw [List.findIdx?_eq_none_iff]
  exact h

set_option maxRecDepth 4000 in
/-- C7: with an extracted file path and project name, the locator
splits the path into segments and returns the path truncated
(inclusively) at the first segment equal to the project name
case-insensitively; with no matching segment or no project name it
returns the path with its last segment dropped (both platforms); and
on the concrete Unix tab label the extracted path and final workspace
are exactly as claimed. -/
theorem claim7_workspace_truncation (path pn : List Char) (i : Nat)
    (hi : i < (pathSegments false path).length)
    (hmatch : segMatches pn ((pathSegments false path).getD i []) = true)
    (hbefore : ∀ j, j < i → segMatches pn ((pathSegments false path).getD j []) = false) :
    computeWorkspacePath path false (some pn) =
      '/' :: joinSep '/' ((pathSegments false path).take (i + 1)) ∧
    (∀ q qn j, j < (pathSegments true q).length →
      segMatches qn ((pathSegments true q).getD j []) = true →
      (∀ k, k < j → segMatches qn ((pathSegments true q).getD k []) = false) →
      computeWorkspacePath q true (some qn) =
        winJoin ((pathSegments true q).take (j + 1))) ∧
    (∀ q qn, (∀ seg ∈ pathSegments false q, segMatches qn seg = false) →
      computeWorkspacePath q false (some qn) =
        '/' :: joinSep '/' ((pathSegments false q).dropLast)) ∧
    (∀ q, computeWorkspacePath q false none =
      '/' :: joinSep '/' ((pathSegments false q).dropLast)) ∧
    extractPathFromLabel "/Users/alice/MyProject/src/index.ts - MyProject".toList =
      some ("/Users/alice/MyProject/src/index.ts".toList, false) ∧
    computeWorkspacePath "/Users/alice/MyProject/src/index.ts".toList false
      (some "MyProject".toList) = "/Users/alice/MyProject".toList := by
  refine ⟨?_, ?_, ?_, ?_, by decide, by decide⟩
  · unfold computeWorkspacePath
    dsimp only
    rw [findIdx_first (segMatches pn) _ [] i hi hmatch hbefore]
    rfl
  · intro q qn j hj hjm hjb
    unfold computeWorkspacePath
    dsimp only
    rw [findIdx_first (segMatches qn) _ [] j hj hjm hjb]
    rfl
  · intro q qn hq
    unfold computeWorkspacePath
    dsimp only
    rw [findIdx_none _ _ hq]
    rfl
  · intro q
    rfl

set_option maxRecDepth 4000 in
/-- Witness for C7: the claimed Unix example, obtained by applying the
truncation theorem at the concrete path, project name and matching
segment index 2. -/
theorem claim7_workspace_truncation_witness :
    computeWorkspacePath "/Users/alice/MyProject/src/index.ts".toList false
      (some "MyProject".toList) =
      '/' :: joinSep '/'
        ((pathSegments false "/Users/alice/MyProject/src/index.ts".toList).take 3) :=
  (claim7_workspace_truncation "/Users/alice/MyProject/src/index.ts".toList
    "MyProject".toList 2 (by decide) (by decide)
    (by decide)).1

theorem acceptText_eq (raw : List Char) :
    acceptText raw =
      (!(jsTrim raw).isEmpty && !isBlacklisted (jsTrim raw) &&
       decide (30 < (jsTrim raw).length) && decide ((jsTrim raw).length < 5000) &&
       hasSentencePunct (jsTrim raw) && decide (5 < (jsSplitWS (jsTrim raw)).length)) := rfl

theorem isBlacklisted_eq (t : List Char) :
    isBlacklisted t =
      (decide ((jsTrim t).length < 20) || decide ((jsSplitChar ' ' (jsTrim t)).length < 4) ||
       blacklistAny (jsTrim t)) := rfl

theorem claimAcceptC4_eq (raw : List Char) :
    claimAcceptC4 raw =
      (decide (20 ≤ (jsTrim raw).length) && decide (4 ≤ (jsSplitChar ' ' (jsTrim raw)).length) &&
       !(blacklistAny (jsTrim raw)) && hasSentencePunct (jsTrim raw) &&
       decide (5 < (jsSplitWS (jsTrim raw)).length)) := rfl

set_option maxRecDepth 4000 in
/-- C4 counterexample: the 20-character text `He is a big cat, no?` has
at least 20 characters, 6 words, no blacklist match, sentence
punctuation and more than 5 words — every condition the claim lists —
yet the code rejects it, because the acceptance loop additionally
requires more than 30 characters. -/
theorem claim4_counterexample :
    acceptText "He is a big cat, no?".toList = false ∧
    claimAcceptC4 "He is a big cat, no?".toList = true := by
  exact ⟨by decide, by decide⟩

set_option maxRecDepth 8000 in
/-- C4 amended: a candidate's visible text is accepted if and only if,
in addition to every condition the claim lists (formalised verbatim as
`claimAcceptC4`), its trimmed length is strictly greater than 30 and
strictly less than 5000; the claim's three concrete examples behave as
stated. -/
theorem claim4_classifier_rule (raw : List Char) :
    (acceptText raw = true ↔
      (claimAcceptC4 raw = true ∧ 30 < (jsTrim raw).length ∧
        (jsTrim raw).length < 5000)) ∧
    acceptText "3:45 AM".toList = false ∧
    acceptText "Submit".toList = false ∧
    acceptText "The function failed because the input was malformed, please retry.".toList
      = true := by
  refine ⟨?_, by decide, by decide, by decide⟩
  rw [acceptText_eq, isBlacklisted_eq, claimAcceptC4_eq, jsTrim_idem]
  simp only [Bool.and_eq_true, Bool.not_eq_true', Bool.or_eq_false_iff,
    decide_eq_true_eq, decide_eq_false_iff_not, List.isEmpty_eq_false, Nat.not_lt,
    and_assoc]
  constructor
  · rintro ⟨hne, h20, h4, hbl, h30, h5000, hp, hw⟩
    exact ⟨h20, h4, hbl, hp, hw, h30, h5000⟩
  · rintro ⟨h20, h4, hbl, hp, hw, h30, h5000⟩
    refine ⟨?_, h20, h4, hbl, h30, h5000, hp, hw⟩
    intro hnil
    rw [hnil] at h30
    simp at h30

/-- C9: any input text that contains the substring `workflows` or
`mentions` case-insensitively — anywhere, because these blacklist
entries are unanchored — is blacklisted and therefore rejected by the
classifier, never producing a conversation record. -/
theorem claim9_unanchored_substrings (raw : List Char)
    (h : listContains "workflows".toList (lcList raw) = true ∨
         listContains "mentions".toList (lcList raw) = true) :
    isBlacklisted (jsTrim raw) = true ∧ acceptText raw = false ∧
    (∀ cls, classify { className := cls, innerText := raw } = none) := by
  have hstep : ∀ needle : List Char, needle ≠ [] →
      (∀ c ∈ needle, isWS c = false) →
      listContains needle (lcList raw) = true →
      listContains needle (lcList (jsTrim (jsTrim raw))) = true := by
    intro needle hne hws hc
    rw [lcList_jsTrim, lcList_jsTrim]
    exact listContains_jsTrim needle hne hws _ (listContains_jsTrim needle hne hws _ hc)
  have hbl : isBlacklisted (jsTrim raw) = true := by
    rw [isBlacklisted_eq]
    have hany : blacklistAny (jsTrim (jsTrim raw)) = true := by
      rcases h with hw | hm
      · have hconc : listContains ['w', 'o', 'r', 'k', 'f', 'l', 'o', 'w', 's']
            (lcList (jsTrim (jsTrim raw))) = true :=
          hstep "workflows".toList (by decide) (by decide) hw
        simp only [blacklistAny, blacklist, List.any_cons, List.any_nil]
        simp [testCI, hconc]
      · have hconc : listContains ['m', 'e', 'n', 't', 'i', 'o', 'n', 's']
            (lcList (jsTrim (jsTrim raw))) = true :=
          hstep "mentions".toList (by decide) (by decide) hm
        simp only [blacklistAny, blacklist, List.any_cons, List.any_nil]
        simp [testCI, hconc]
    simp [hany]
  have hacc : acceptText raw = false := by
    rw [acceptText_eq]
    simp [hbl]
  refine ⟨hbl, hacc, ?_⟩
  intro cls
  simp [classify, hacc]

set_option maxRecDepth 4000 in
/-- Witness for C9: a genuine prose sentence that merely mentions the
word workflows is rejected. -/
theorem claim9_unanchored_substrings_witness :
    acceptText "This workflows sentence definitely has many words in it.".toList = false :=
  (claim9_unanchored_substrings
    "This workflows sentence definitely has many words in it.".toList
    (Or.inl (by decide))).2.1

set_option maxRecDepth 8000 in
/-- C8 counterexample: the first selector yields a candidate element,
every candidate of that selector is rejected by the classifier, and the
scan nevertheless examines the later selector and returns its accepted
message — so the loop does not stop at the first selector that yields
candidates. -/
theorem claim8_counterexample :
    cexDom ".conversation-content" ≠ [] ∧
    (cexDom ".conversation-content").filterMap classify = [] ∧
    scanSelectors cexDom conversationSelectors [] =
      [{ role := Role.agent, content := goodProse.toList }] := by
  exact ⟨by decide, by decide, by decide⟩

/-- C8 amended: the selector scan stops at the first selector whose
candidates yield at least one accepted message; selectors whose
candidates are all rejected do not stop it.  In particular the scan
result is the accepted-message list of the first accepting selector,
and the scan of a DOM in which every selector's candidates are rejected
is empty. -/
theorem claim8_selector_scan (dom : String → List Candidate) (sels : List String)
    (i : Nat) (hi : i < sels.length)
    (hbefore : ∀ j, j < i → (dom (sels.getD j "")).filterMap classify = [])
    (hyield : (dom (sels.getD i "")).filterMap classify ≠ []) :
    scanSelectors dom sels [] = (dom (sels.getD i "")).filterMap classify ∧
    (∀ dom2 : String → List Candidate, ∀ sels2 : List String,
      (∀ s ∈ sels2, (dom2 s).filterMap classify = []) →
      scanSelectors dom2 sels2 [] = []) := by
  constructor
  · induction sels generalizing i with
    | nil => simp at hi
    | cons s rest ih =>
      cases i with
      | zero =>
        simp only [List.getD_cons_zero] at hyield ⊢
        simp only [scanSelectors, List.nil_append]
        rw [if_pos (List.length_pos.mpr hyield)]
      | succ k =>
        have h0 : (dom s).filterMap classify = [] := by
          have h1 := hbefore 0 (Nat.succ_pos k)
          simpa using h1
        simp only [List.getD_cons_succ] at hyield ⊢
        simp only [scanSelectors, List.nil_append, h0]
        rw [if_neg (by simp)]
        refine ih k (by simpa using hi) ?_ hyield
        intro j hj
        have h2 := hbefore (j + 1) (Nat.succ_lt_succ hj)
        simpa using h2
  · intro dom2 sels2 hall
    induction sels2 with
    | nil => rfl
    | cons s2 r2 ih2 =>
      have h0 : (dom2 s2).filterMap classify = [] := hall s2 (List.mem_cons_self _ _)
      simp only [scanSelectors, List.nil_append, h0]
      rw [if_neg (by simp)]
      exact ih2 (fun x hx => hall x (List.mem_cons_of_mem _ hx))

set_option maxRecDepth 8000 in
/-- Witness for C8: on the concrete DOM whose first selector yields a
rejected candidate, the scan returns the accepted messages of the
second selector. -/
theorem claim8_selector_scan_witness :
    scanSelectors cexDom conversationSelectors [] =
      (cexDom (conversationSelectors.getD 1 "")).filterMap classify :=
  (claim8_selector_scan cexDom conversationSelectors 1 (by decide)
    (fun j hj => by
      have hj0 : j = 0 := by omega
      subst hj0
      decide)
    (by decide)).1
